import Mathlib

/-
Verification development for djangofeeds (brendanowens/django-feeds).

Shallow embedding of `djangofeeds/importers.py` and `djangofeeds/feedutil.py`
(Python 2 / Django).  Python strings are modelled as `List Char`, Python
`time.struct_time` / `datetime` values as `Nat` timestamps (the pass clock is
an explicit `now : Nat` parameter), the Django ORM stores as explicit lists of
records, and raised exceptions as `Except` errors.  External collaborators
(feedparser fetching, `truncate_html_words`) are passed in as parameters.
-/

namespace Djangofeeds

/-- Python strings are modelled as lists of characters, so that slicing and
length reasoning are elementary list facts. -/
abbrev Str := List Char

/-- Python `str.strip()`: drop whitespace from both ends. -/
def pyStrip (s : Str) : Str :=
  ((s.dropWhile Char.isWhitespace).reverse.dropWhile Char.isWhitespace).reverse

/-- Declared `max_length` of a Django model field, as seen by
`truncate_by_field` in `importers.py`: the attribute can be missing entirely
(`hasattr` fails), be Python `None` (no declared bound), or be an integer. -/
inductive MaxLen where
  | absent : MaxLen
  | null : MaxLen
  | lim : Nat → MaxLen
deriving DecidableEq, Repr

/-- Model of `truncate_by_field(field, value)` from `importers.py` for string
values.  The source guard is
`isinstance(value, basestring) and hasattr(field, "max_length") and value > field.max_length`.
In Python 2 a `str` compares greater than every `int` and greater than `None`
(cross-type comparison), so for a string value the guard holds whenever the
attribute exists, and the function returns `value[:field.max_length]`.
`value[:None]` is the whole string; `value[:n]` is the first `n` characters.
Non-string values (the datetime fields, the feed reference) are returned
unchanged by the source and are not routed through this model. -/
def truncate_by_field (m : MaxLen) (value : Str) : Str :=
  match m with
  | .absent => value
  | .null => value
  | .lim n => value.take n

/-- HTTP status constants as imported from `httplib` in `importers.py`. -/
def HTTP_OK : Nat := 200
def HTTP_MOVED : Nat := 301
def HTTP_FOUND : Nat := 302
def HTTP_NOT_MODIFIED : Nat := 304
def HTTP_TEMPORARY_REDIRECT : Nat := 307
def HTTP_NOT_FOUND : Nat := 404

/-- `ACCEPTED_STATUSES = [HTTP_FOUND, HTTP_MOVED, HTTP_OK, HTTP_TEMPORARY_REDIRECT]`. -/
def ACCEPTED_STATUSES : List Nat := [HTTP_FOUND, HTTP_MOVED, HTTP_OK, HTTP_TEMPORARY_REDIRECT]

/-- Modelled from the spec: the error markers `FEED_TIMEDOUT_ERROR`,
`FEED_NOT_FOUND_ERROR` and `FEED_GENERIC_ERROR` are imported from
`djangofeeds.models`, which is not among the sources; the spec's error
taxonomy only requires three distinct non-empty tags stored in
`FeedSource.last_error`. -/
def FEED_TIMEDOUT_ERROR : Str := "TIMEDOUT".toList

/-- Modelled from the spec: see `FEED_TIMEDOUT_ERROR`. -/
def FEED_NOT_FOUND_ERROR : Str := "NOT_FOUND".toList

/-- Modelled from the spec: see `FEED_TIMEDOUT_ERROR`. -/
def FEED_GENERIC_ERROR : Str := "GENERIC".toList

/-- Exceptions that can escape the modelled code paths. -/
inductive Err where
  /-- Django `MultipleObjectsReturned` from a `get`/`get_or_create`. -/
  | multipleObjectsReturned : Err
  /-- Python `NameError`: an undefined name is referenced
  (`possible_dupe` in `_find_duplicate_post`, `sorted_entries` in
  `feedutil.entries_by_date`). -/
  | nameError : Err
  /-- Python `AttributeError` (for example `.encode` on a `struct_time`,
  or `.get` on `None`). -/
  | attributeError : Err
  /-- `FeedNotFoundError` raised by `import_feed` on a first import. -/
  | feedNotFound : Err
  /-- `FeedCriticalError` with the original HTTP status. -/
  | feedCritical : Nat → Err
  /-- Python `RuntimeError` on exhausted recursion depth (models the fuel
  bound on the self-recursion of `import_feed`). -/
  | recursionError : Err
deriving DecidableEq, Repr

/-- A raw feedparser entry, restricted to the keys the source reads.
`Option.none` models an absent key.  The three `*_parsed` fields are
feedparser date tuples, modelled as `Nat` timestamps.  `rank` models the
position of the entry value in Python 2's total order on the underlying
dictionaries: when `entries_by_date` sorts `(date, entry)` tuples and the
dates tie, Python 2 compares the entry dictionaries themselves, a total,
content-determined, position-independent comparison, which this field
abstracts. -/
structure FEntry where
  date_parsed : Option Nat
  updated_parsed : Option Nat
  published_parsed : Option Nat
  content : List Str
  summary : Option Str
  description : Option Str
  link : Option Str
  guid : Option Str
  title : Option Str
  author : Option Str
  rank : Nat
deriving DecidableEq, Repr

/-- `date_entry_tuple(entry)`, the inner function of `entries_by_date` in
`importers.py`: the first present date field wins; when none is present the
fallback is `time.localtime()`, the pass clock `now` (one wall-clock reading
per batch at `localtime`'s one-second resolution). -/
def date_entry_tuple (now : Nat) (entry : FEntry) : Nat × FEntry :=
  match entry.date_parsed with
  | some d => (d, entry)
  | none =>
    match entry.updated_parsed with
    | some d => (d, entry)
    | none =>
      match entry.published_parsed with
      | some d => (d, entry)
      | none => (now, entry)

/-- The timestamp `entries_by_date` resolves for an entry. -/
def date_key (now : Nat) (entry : FEntry) : Nat :=
  (date_entry_tuple now entry).1

/-- Python 2's ascending comparison on the `(date, entry)` tuples built by
`entries_by_date`: lexicographic, first on the date, then (on a tie) on the
entry dictionaries themselves, abstracted by `FEntry.rank`. -/
def pairLe (a b : Nat × FEntry) : Prop :=
  a.1 < b.1 ∨ (a.1 = b.1 ∧ a.2.rank ≤ b.2.rank)

instance : DecidableRel pairLe := fun a b => by
  unfold pairLe
  infer_instance

instance : IsTotal (Nat × FEntry) pairLe where
  total a b := by
    unfold pairLe
    rcases Nat.lt_trichotomy a.1 b.1 with h | h | h
    · exact Or.inl (Or.inl h)
    · rcases Nat.le_total a.2.rank b.2.rank with hr | hr
      · exact Or.inl (Or.inr ⟨h, hr⟩)
      · exact Or.inr (Or.inr ⟨h.symm, hr⟩)
    · exact Or.inr (Or.inl h)

instance : IsTrans (Nat × FEntry) pairLe where
  trans a b c hab hbc := by
    unfold pairLe at *
    rcases hab with h1 | ⟨h1, r1⟩ <;> rcases hbc with h2 | ⟨h2, r2⟩ <;> omega

/-- Python list slicing `l[:limit]` for a possibly negative bound:
`l[:n]` with `n ≥ 0` keeps the first `n` elements, `l[:-k]` drops the last
`k`. -/
def pySlice (limit : Int) (l : List α) : List α :=
  if 0 ≤ limit then l.take limit.toNat
  else l.take (l.length - (-limit).toNat)

/-- `entries_by_date(entries, limit)` from `importers.py`: build the
`(date, entry)` tuples, sort them ascending with Python's stable sort under
the full tuple comparison, reverse in place, slice to `limit` and project the
entries out.  `List.insertionSort` is a stable sort, hence extensionally the
same list as CPython's stable `list.sort` for this total preorder. -/
def entries_by_date (now : Nat) (entries : List FEntry) (limit : Int) : List FEntry :=
  let sorted_entries := (entries.map (date_entry_tuple now)).insertionSort pairLe
  (pySlice limit sorted_entries.reverse).map Prod.snd

/-- `date_entry_tuple(entry, counter)`, the inner function of
`feedutil.entries_by_date`.  On every present date field the source calls
`.encode("utf-8")` on a feedparser date tuple, which has no such attribute:
`AttributeError`.  When no date field parses, the synthesized timestamp is
`now - timedelta(seconds=counter * 30)`, strictly decreasing in the entry's
position `counter`. -/
def feedutil_date_entry_tuple (now : Int) (entry : FEntry) (counter : Nat) :
    Except Err (Int × FEntry) :=
  match entry.date_parsed with
  | some _ => .error .attributeError
  | none =>
    match entry.updated_parsed with
    | some _ => .error .attributeError
    | none =>
      match entry.published_parsed with
      | some _ => .error .attributeError
      | none => .ok (now - (counter * 30 : Nat), entry)

/-- Helper: evaluate `feedutil_date_entry_tuple` over an enumerated batch, as
the list comprehension in `feedutil.entries_by_date` does. -/
def feedutil_date_tuples (now : Int) : Nat → List FEntry → Except Err (List (Int × FEntry))
  | _, [] => .ok []
  | counter, e :: rest =>
    match feedutil_date_entry_tuple now e counter with
    | .error err => .error err
    | .ok p =>
      match feedutil_date_tuples now (counter + 1) rest with
      | .error err => .error err
      | .ok ps => .ok (p :: ps)

/-- `feedutil.entries_by_date`: the comprehension builds a list bound to the
misspelled name `sortede_entries`; every later statement reads the undefined
name `sorted_entries`, so once the comprehension succeeds the function raises
`NameError` unconditionally. -/
def feedutil_entries_by_date (now : Int) (entries : List FEntry) (_limit : Option Int) :
    Except Err (List FEntry) :=
  match feedutil_date_tuples now 0 entries with
  | .error err => .error err
  | .ok _ => .error .nameError

/-- `_find_post_summary(feed_obj, entry)` from `importers.py`, the handler
behind the "content" key of `post_field_handlers`.  The source tries
`entry["content"][0]["value"]` (an absent key or empty block list yields `""`)
and then returns `summarize_html(entry.get("summary", content))`: the summary,
when the key is present, takes priority, and the content block value is only
the default of that lookup.  `summarize_html` wraps Django's
`truncate_html_words`, an external collaborator passed in as `σ`. -/
def find_post_summary (σ : Str → Str) (entry : FEntry) : Str :=
  let content := entry.content.headD []
  σ (entry.summary.getD content)

/-- A persisted `Feed` row, with the fields `importers.py` reads or writes.
The field set follows the spec's FeedSource data model (`djangofeeds/models.py`
is not among the sources). -/
structure FeedRec where
  feed_url : Str
  name : Str
  description : Str
  sort : Nat
  last_error : Str
  date_last_refresh : Option Nat
  http_etag : Str
  http_last_modified : Option Nat
deriving DecidableEq, Repr

/-- The dictionary produced by `post_fields_parsed` (minus the "feed" key,
whose value is the feed object itself and is carried separately). -/
structure PostFields where
  content : Str
  date_published : Nat
  date_updated : Nat
  link : Str
  guid : Str
  title : Str
  author : Str
deriving DecidableEq, Repr

/-- `post_fields_parsed(entry, feed_obj)`: run every handler of
`post_field_handlers` on the entry.
The date handlers come from `_gen_parsed_date_to_datetime`: a present field is
converted with `time.mktime`/`datetime.fromtimestamp` (the identity in this
timestamp model); an absent or malformed field yields `datetime.now()`, the
pass clock `now`. -/
def post_fields_parsed (σ : Str → Str) (now : Nat) (entry : FEntry) (feed_obj : FeedRec) :
    PostFields :=
  { content := find_post_summary σ entry
    date_published := entry.published_parsed.getD now
    date_updated := entry.updated_parsed.getD now
    link := match entry.link with
      | some l => if l = [] then feed_obj.feed_url else l
      | none => feed_obj.feed_url
    guid := pyStrip (entry.guid.getD [])
    title := pyStrip (entry.title.getD "(no title)".toList)
    author := pyStrip (entry.author.getD []) }

/-- Modelled from the spec: the declared `max_length` bounds of the `Post`
model's textual fields (`djangofeeds/models.py` is not among the sources; the
spec's Truncator is parametrized by each field's declared bound). -/
structure PostLimits where
  content : MaxLen
  link : MaxLen
  guid : MaxLen
  title : MaxLen
  author : MaxLen
deriving DecidableEq, Repr

/-- Modelled from the spec: the declared `max_length` bounds of the `Feed`
model's textual fields. -/
structure FeedLimits where
  name : MaxLen
  description : MaxLen
deriving DecidableEq, Repr

/-- `truncate_field_data(Post, fields)`: truncate every string value by its
field's declared bound.  The datetime values are not strings and pass through
`truncate_by_field` unchanged. -/
def truncate_post_fields (L : PostLimits) (f : PostFields) : PostFields :=
  { f with
    content := truncate_by_field L.content f.content
    link := truncate_by_field L.link f.link
    guid := truncate_by_field L.guid f.guid
    title := truncate_by_field L.title f.title
    author := truncate_by_field L.author f.author }

/-- A persisted `Post` row.  `pk` is the database primary key, present so
that distinct rows with equal field values stay distinguishable. -/
structure PostRec where
  pk : Nat
  guid : Str
  title : Str
  author : Str
  link : Str
  content : Str
  date_published : Nat
  date_updated : Nat
  feed : Str
deriving DecidableEq, Repr

/-- Build the row `Post.objects.create(**fields)` inserts. -/
def make_post (pk : Nat) (f : PostFields) (feedUrl : Str) : PostRec :=
  { pk := pk
    guid := f.guid
    title := f.title
    author := f.author
    link := f.link
    content := f.content
    date_published := f.date_published
    date_updated := f.date_updated
    feed := feedUrl }

/-- The `Post` table: its rows plus the next free primary key. -/
structure PostStore where
  posts : List PostRec
  nextPk : Nat
deriving DecidableEq, Repr

/-- Configuration of a `FeedImporter` instance (its keyword arguments and the
module-level settings), together with the injected external collaborators. -/
structure Cfg where
  post_limit : Int
  min_refresh_interval : Nat
  update_on_import : Bool
  summarize : Str → Str
  postLimits : PostLimits
  feedLimits : FeedLimits

/-- The rows matching the guid identity filter `guid=g, feed=f`. -/
def matchesGF (posts : List PostRec) (g f : Str) : List PostRec :=
  posts.filter (fun p => decide (p.guid = g ∧ p.feed = f))

/-- How many rows carry the guid identity `(g, f)`. -/
def countGF (posts : List PostRec) (g f : Str) : Nat :=
  (matchesGF posts g f).length

/-- The rows matching the fallback identity filter
`title=t, feed=f, date_published=d`. -/
def matchesTFD (posts : List PostRec) (t f : Str) (d : Nat) : List PostRec :=
  posts.filter (fun p => decide (p.title = t ∧ p.feed = f ∧ p.date_published = d))

/-- `_find_duplicate_post(lookup_fields, fields)`: iterate the posts matching
`lookup_fields` and compare the fields `author`, `link`, `content` in order.
The loop body reads `possible_dupe`, a name that is never defined (the loop
variable is `possible`), so the first candidate raises `NameError`; only an
empty candidate set lets the function fall through and return `None`. -/
def find_duplicate_post (posts : List PostRec) (t f : Str) (d : Nat) (_fields : PostFields) :
    Except Err (Option PostRec) :=
  match matchesTFD posts t f d with
  | [] => .ok none
  | _ :: _ => .error .nameError

/-- Upsert step of `import_entry`, operating on the already extracted and
truncated field values.  With a non-empty guid the identity is
`(guid, feed)` via `get_or_create`; otherwise
`(title, feed, date_published)` via `get_or_create`, falling back to
`_find_duplicate_post` when that lookup matches several rows.  Django's
`get_or_create` raises `MultipleObjectsReturned` when the lookup matches more
than one row; on the guid path that exception is not caught.  When the row
already existed (`created == False`) the source only calls `post.save()`,
which writes the existing values back: the store is unchanged.  Enclosure and
category handling is gated by flags whose default is off and touches separate
tables, so it does not appear in this post-store model.  The result is the
new store, the affected row and the `created` flag. -/
def upsert_post (st : PostStore) (fields : PostFields) (feedUrl : Str) :
    Except Err (PostStore × PostRec × Bool) :=
  if fields.guid ≠ [] then
    match matchesGF st.posts fields.guid feedUrl with
    | [] =>
      let p := make_post st.nextPk fields feedUrl
      .ok (⟨st.posts ++ [p], st.nextPk + 1⟩, p, true)
    | [p] => .ok (st, p, false)
    | _ :: _ :: _ => .error .multipleObjectsReturned
  else
    match matchesTFD st.posts fields.title feedUrl fields.date_published with
    | [] =>
      let p := make_post st.nextPk fields feedUrl
      .ok (⟨st.posts ++ [p], st.nextPk + 1⟩, p, true)
    | [p] => .ok (st, p, false)
    | _ :: _ :: _ =>
      match find_duplicate_post st.posts fields.title feedUrl
              fields.date_published fields with
      | .error err => .error err
      | .ok (some p) => .ok (st, p, false)
      | .ok none =>
        let p := make_post st.nextPk fields feedUrl
        .ok (⟨st.posts ++ [p], st.nextPk + 1⟩, p, true)

/-- `import_entry(entry, feed_obj)` from `importers.py`: run the field
handlers, truncate the values by the model's declared bounds, then upsert
(see `upsert_post`). -/
def import_entry (cfg : Cfg) (now : Nat) (st : PostStore) (entry : FEntry) (feed_obj : FeedRec) :
    Except Err (PostStore × PostRec × Bool) :=
  upsert_post st
    (truncate_post_fields cfg.postLimits (post_fields_parsed cfg.summarize now entry feed_obj))
    feed_obj.feed_url

/-- The Importing phase of `update_feed`:
`[self.import_entry(entry, feed_obj) for entry in ...]`.  The comprehension
has no per-entry exception handling, so an error from one entry propagates
and the remaining entries are never reached. -/
def import_entries (cfg : Cfg) (now : Nat) (feed_obj : FeedRec) :
    PostStore → List FEntry → Except Err (PostStore × List PostRec)
  | st, [] => .ok (st, [])
  | st, e :: rest =>
    match import_entry cfg now st e feed_obj with
    | .error err => .error err
    | .ok (st', p, _) =>
      match import_entries cfg now feed_obj st' rest with
      | .error err => .error err
      | .ok (st'', ps) => .ok (st'', p :: ps)

/-- Iterate `import_entry` on the same entry `n` times, threading the store. -/
def import_entry_iter (cfg : Cfg) (now : Nat) (entry : FEntry) (feed_obj : FeedRec) :
    Nat → PostStore → Except Err PostStore
  | 0, st => .ok st
  | n + 1, st =>
    match import_entry cfg now st entry feed_obj with
    | .error err => .error err
    | .ok (st', _, _) => import_entry_iter cfg now entry feed_obj n st'

/-- The structure `feedparser.parse` returns, restricted to the keys the
source reads.  `status` is absent for a local (non-HTTP) feed. -/
structure FetchResult where
  status : Option Nat
  entries : List FEntry
  href : Str
  etag : Option Str
  modified : Option Nat
  channel_title : Option Str
  channel_description : Option Str
deriving DecidableEq, Repr

/-- What a call to `parse_feed` does: return a parsed structure, raise
`socket.timeout`, or raise some other exception. -/
inductive FetchOutcome where
  | ok : FetchResult → FetchOutcome
  | timeout : FetchOutcome
  | exn : FetchOutcome
deriving DecidableEq, Repr

/-- Result of a completed `update_feed` call: the (possibly mutated and
saved) feed row, the post store, and whether `parse_feed` was invoked. -/
structure UpdateResult where
  feed : FeedRec
  store : PostStore
  fetched : Bool
deriving DecidableEq, Repr

/-- `update_feed(feed_obj, feed=None, force=False)` from `importers.py`.

The throttle guard
`if feed_obj.date_last_refresh and datetime.now() < feed_obj.date_last_refresh + MIN_REFRESH_INTERVAL`
returns the feed unchanged; the `force` keyword is accepted but never read
anywhere in the body, exactly as in the source.  `fetch` is the outcome
`parse_feed(feed_obj.feed_url, ...)` would produce if invoked; `fetched`
records whether it was.  A `socket.timeout` or other parse exception is
recorded in `last_error` and saved.  Status `HTTP_NOT_MODIFIED` is a pure
no-op; `HTTP_NOT_FOUND` and non-accepted statuses record an error without
touching `date_last_refresh`.  On an accepted status the entries are ordered
and imported (errors propagate), then `date_last_refresh`, `http_etag`,
`http_last_modified` and a cleared `last_error` are saved together. -/
def update_feed (cfg : Cfg) (fetch : FetchOutcome) (now : Nat) (feed_obj : FeedRec)
    (st : PostStore) (feedArg : Option FetchResult) (_force : Bool) :
    Except Err UpdateResult :=
  let throttled : Bool :=
    match feed_obj.date_last_refresh with
    | some t => decide (now < t + cfg.min_refresh_interval)
    | none => false
  if throttled then
    .ok ⟨feed_obj, st, false⟩
  else
    let fetched := feedArg.isNone
    let feedRes := match feedArg with
      | some f => FetchOutcome.ok f
      | none => fetch
    match feedRes with
    | .timeout => .ok ⟨{ feed_obj with last_error := FEED_TIMEDOUT_ERROR }, st, fetched⟩
    | .exn => .ok ⟨{ feed_obj with last_error := FEED_GENERIC_ERROR }, st, fetched⟩
    | .ok f =>
      let status := f.status.getD HTTP_OK
      if status = HTTP_NOT_MODIFIED then
        .ok ⟨feed_obj, st, fetched⟩
      else if status = HTTP_NOT_FOUND then
        .ok ⟨{ feed_obj with last_error := FEED_NOT_FOUND_ERROR }, st, fetched⟩
      else if status ∉ ACCEPTED_STATUSES then
        .ok ⟨{ feed_obj with last_error := FEED_GENERIC_ERROR }, st, fetched⟩
      else
        match import_entries cfg now feed_obj st
                (entries_by_date now f.entries cfg.post_limit) with
        | .error err => .error err
        | .ok (st', _) =>
          .ok ⟨{ feed_obj with
                  date_last_refresh := some now
                  http_etag := f.etag.getD []
                  http_last_modified :=
                    match f.modified with
                    | some m => some m
                    | none => feed_obj.http_last_modified
                  last_error := [] },
               st', fetched⟩

/-- Persist a mutated feed row: replace the stored row with the same URL. -/
def save_feed (feeds : List FeedRec) (fr : FeedRec) : List FeedRec :=
  feeds.map (fun g => if g.feed_url = fr.feed_url then fr else g)

/-- Result of a completed `import_feed` call: the returned feed row, the
`Feed` table and the `Post` table. -/
structure ImportResult where
  feed : FeedRec
  feeds : List FeedRec
  posts : PostStore
deriving DecidableEq, Repr

/-- Shared tail of `import_feed`: category handling (gated off by default)
and, when `update_on_import` is set, the `update_feed` call. -/
def import_feed_tail (cfg : Cfg) (fetch : Str → FetchOutcome) (now : Nat)
    (feeds : List FeedRec) (ps : PostStore) (feed_obj : FeedRec)
    (feedOpt : Option FetchResult) (force : Bool) : Except Err ImportResult :=
  if cfg.update_on_import then
    match update_feed cfg (fetch feed_obj.feed_url) now feed_obj ps feedOpt force with
    | .error err => .error err
    | .ok r => .ok ⟨r.feed, save_feed feeds r.feed, r.store⟩
  else
    .ok ⟨feed_obj, feeds, ps⟩

/-- `import_feed(feed_url, force=None)` from `importers.py`.

On a URL not yet in the `Feed` table the source parses the feed first.  A
`socket.timeout` leaves the local variable `feed` bound to `None`, so the
following `feed.get("status", ...)` raises `AttributeError`; any other parse
exception substitutes a bare `status=500` result, which the non-accepted
check turns into `FeedCriticalError(500)`.  `HTTP_NOT_FOUND` raises
`FeedNotFoundError` before anything is persisted.  After the critical-error
checks the source re-reads the status as `feed.get("status\x5cn", HTTP_OK)`:
the mistyped key (trailing newline) is never present in a parser result, so
the lookup always yields the default `HTTP_OK` and the redirect branch
(which would recurse on `feed.href`) is unreachable.  The redirect recursion
itself has no depth cap in the source; the `fuel` argument bounds it in this
model, `recursionError` standing for Python's recursion limit.  The feed row
is then created by `get_or_create` keyed on the full data dictionary, and
the shared tail runs `update_feed` with the already-parsed structure.  For a
URL already in the table, parsing is skipped (`feed = None`) and the tail
lets `update_feed` fetch. -/
def import_feed (cfg : Cfg) (fetch : Str → FetchOutcome) (now : Nat) :
    Nat → List FeedRec → PostStore → Str → Bool → Except Err ImportResult
  | 0, _, _, _, _ => .error .recursionError
  | fuel + 1, feeds, ps, feed_url₀, force =>
    let feed_url := pyStrip feed_url₀
    match feeds.filter (fun fr => decide (fr.feed_url = feed_url)) with
    | fr :: _ :: _ =>
      let _ := fr
      .error .multipleObjectsReturned
    | [feed_obj] => import_feed_tail cfg fetch now feeds ps feed_obj none force
    | [] =>
      match fetch feed_url with
      | .timeout => .error .attributeError
      | .exn => .error (.feedCritical 500)
      | .ok f =>
        let status := f.status.getD HTTP_NOT_FOUND
        if status = HTTP_NOT_FOUND then .error .feedNotFound
        else if status ∉ ACCEPTED_STATUSES then .error (.feedCritical status)
        else
          let status2 := HTTP_OK
          if (status2 = HTTP_FOUND ∨ status2 = HTTP_MOVED) ∧ feed_url ≠ f.href then
            import_feed cfg fetch now fuel feeds ps f.href force
          else
            let feed_name := pyStrip (f.channel_title.getD "(no title)".toList)
            let name := truncate_by_field cfg.feedLimits.name feed_name
            let desc := truncate_by_field cfg.feedLimits.description
                          (f.channel_description.getD [])
            match feeds.filter (fun fr => decide (fr.feed_url = feed_url ∧ fr.sort = 0 ∧
                    fr.name = name ∧ fr.description = desc ∧ fr.last_error = [])) with
            | fr :: _ :: _ =>
              let _ := fr
              .error .multipleObjectsReturned
            | [feed_obj] => import_feed_tail cfg fetch now feeds ps feed_obj (some f) force
            | [] =>
              let feed_obj : FeedRec :=
                { feed_url := feed_url
                  name := name
                  description := desc
                  sort := 0
                  last_error := []
                  date_last_refresh := none
                  http_etag := []
                  http_last_modified := none }
              import_feed_tail cfg fetch now (feeds ++ [feed_obj]) ps feed_obj (some f) force

/-- The guid value `import_entry` stores for an entry: trimmed, then
truncated by the `guid` field's declared bound. -/
def entry_guid (cfg : Cfg) (e : FEntry) : Str :=
  truncate_by_field cfg.postLimits.guid (pyStrip (e.guid.getD []))

/-- An entry with every key absent (the base for concrete test entries). -/
def noneEntry : FEntry :=
  ⟨none, none, none, [], none, none, none, none, none, none, 0⟩

/-- Concrete entry with a parsed date and the dictionary-order position 1.
Its author "Alice" sorts before "Bob" in Python 2's value comparison of the
underlying dictionaries, which `rank` abstracts. -/
def exA : FEntry :=
  { noneEntry with date_parsed := some 100, author := some "Alice".toList, rank := 1 }

/-- Concrete entry with the same parsed date as `exA` and position 2. -/
def exB : FEntry :=
  { noneEntry with date_parsed := some 100, author := some "Bob".toList, rank := 2 }

/-- Post field bounds with no declared limit on any field. -/
def limitsFree : PostLimits := ⟨.null, .null, .null, .null, .null⟩

/-- Concrete importer configuration with the documented defaults
(`post_limit` 20, `MIN_REFRESH_INTERVAL` 20 minutes, `update_on_import`
on) and the identity as the injected HTML summarizer. -/
def cfgW : Cfg :=
  { post_limit := 20
    min_refresh_interval := 1200
    update_on_import := true
    summarize := fun s => s
    postLimits := limitsFree
    feedLimits := ⟨.null, .null⟩ }

/-- Concrete feed row that has never been refreshed. -/
def foW : FeedRec := ⟨"u".toList, "N".toList, [], 0, [], none, [], none⟩

/-- Concrete feed row last refreshed at time 5. -/
def foT : FeedRec := { foW with date_last_refresh := some 5 }

/-- Concrete entry with guid `" g "` (non-empty after trimming). -/
def gEntry : FEntry :=
  { noneEntry with guid := some " g ".toList, title := some "T".toList }

/-- A stored post with empty guid, title "News", published date 50, on feed
"u", with the given primary key and author. -/
def dupPost (pk : Nat) (a : Str) : PostRec :=
  { pk := pk, guid := [], title := "News".toList, author := a, link := "u".toList,
    content := [], date_published := 50, date_updated := 5, feed := "u".toList }

/-- A post store already holding two rows with the same fallback identity
(title "News", feed "u", published 50). -/
def stDup : PostStore := ⟨[dupPost 0 "x".toList, dupPost 1 "y".toList], 2⟩

/-- Concrete entry with no guid whose fallback identity (title "News",
published 50) matches both rows of `stDup`. -/
def badEntry : FEntry :=
  { noneEntry with title := some "News".toList, published_parsed := some 50,
                   date_parsed := some 60 }

/-- Concrete entry with a fresh non-empty guid, dated before `badEntry`. -/
def okEntry : FEntry :=
  { noneEntry with guid := some "fresh".toList, title := some "T2".toList,
                   date_parsed := some 55 }

/-- Concrete parse result: HTTP 200 with the batch `[badEntry, okEntry]`. -/
def frGood : FetchResult :=
  ⟨some 200, [badEntry, okEntry], "u".toList, none, none,
   some "T".toList, some "D".toList⟩

/-- Concrete parse result: HTTP 302 (FOUND) redirect whose final URL
`http-new` differs from the requested one, with no entries. -/
def fr302 : FetchResult :=
  ⟨some 302, [], "http-new".toList, none, none, some "T".toList, some "D".toList⟩

/-- A fetcher that answers every URL with the `fr302` redirect result. -/
def fetch302 : Str → FetchOutcome := fun _ => .ok fr302

/-- Concrete entry with no parseable date at all, position 1 of its batch. -/
def c6a : FEntry := { noneEntry with title := some "one".toList, rank := 1 }

/-- Concrete entry with no parseable date at all, position 2 of its batch. -/
def c6b : FEntry := { noneEntry with title := some "two".toList, rank := 2 }

/-- Concrete entry carrying both a structured content block "C" and a
summary "S" (and a description "D"). -/
def c8e : FEntry :=
  { noneEntry with content := ["C".toList], summary := some "S".toList,
                   description := some "D".toList }

theorem truncate_by_field_ne_nil (m : MaxLen) (s : Str) (hm : m ≠ .lim 0) (hs : s ≠ []) :
    truncate_by_field m s ≠ [] := by
  cases m with
  | absent => exact hs
  | null => exact hs
  | lim n =>
    cases n with
    | zero => exact absurd rfl hm
    | succ k =>
      cases s with
      | nil => exact absurd rfl hs
      | cons c t => simp [truncate_by_field]

theorem date_entry_tuple_snd (now : Nat) (e : FEntry) : (date_entry_tuple now e).2 = e := by
  cases hd : e.date_parsed <;> cases hu : e.updated_parsed <;>
    cases hp : e.published_parsed <;> simp [date_entry_tuple, hd, hu, hp]

theorem upsert_post_create (st : PostStore) (fields : PostFields) (feedUrl : Str)
    (hg : fields.guid ≠ []) (h0 : matchesGF st.posts fields.guid feedUrl = []) :
    upsert_post st fields feedUrl =
      .ok (⟨st.posts ++ [make_post st.nextPk fields feedUrl], st.nextPk + 1⟩,
           make_post st.nextPk fields feedUrl, true) := by
  unfold upsert_post
  rw [if_pos hg, h0]

theorem upsert_post_update (st : PostStore) (fields : PostFields) (feedUrl : Str)
    (p : PostRec) (hg : fields.guid ≠ []) (h1 : matchesGF st.posts fields.guid feedUrl = [p]) :
    upsert_post st fields feedUrl = .ok (st, p, false) := by
  unfold upsert_post
  rw [if_pos hg, h1]

theorem fields_guid_eq (cfg : Cfg) (now : Nat) (e : FEntry) (fo : FeedRec) :
    (truncate_post_fields cfg.postLimits (post_fields_parsed cfg.summarize now e fo)).guid
      = entry_guid cfg e := rfl

theorem matchesGF_append (l r : List PostRec) (g f : Str) :
    matchesGF (l ++ r) g f = matchesGF l g f ++ matchesGF r g f := by
  simp [matchesGF, List.filter_append]

theorem matchesGF_make_post (pk : Nat) (fields : PostFields) (f : Str) :
    matchesGF [make_post pk fields f] fields.guid f = [make_post pk fields f] := by
  simp [matchesGF, make_post]

theorem feedutil_synth_strict_anti (now : Int) (e1 e2 : FEntry) (i j : Nat) (hij : i < j)
    (h1 : e1.date_parsed = none ∧ e1.updated_parsed = none ∧ e1.published_parsed = none)
    (h2 : e2.date_parsed = none ∧ e2.updated_parsed = none ∧ e2.published_parsed = none) :
    ∃ k1 k2 : Int,
      feedutil_date_entry_tuple now e1 i = .ok (k1, e1) ∧
      feedutil_date_entry_tuple now e2 j = .ok (k2, e2) ∧ k2 < k1 := by
  refine ⟨now - (i * 30 : Nat), now - (j * 30 : Nat), ?_, ?_, ?_⟩
  · simp [feedutil_date_entry_tuple, h1.1, h1.2.1, h1.2.2]
  · simp [feedutil_date_entry_tuple, h2.1, h2.2.1, h2.2.2]
  · have : i * 30 < j * 30 := by omega
    push_cast
    omega

/-- C2: for an existing FeedSource whose last refresh timestamp is `t`, a
refresh call with `force = false` at any time earlier than
`t + min_refresh_interval` invokes no fetch and mutates no FeedSource field:
`update_feed` returns the feed row and the post store unchanged, with the
fetch flag false. -/
theorem update_feed_throttled_noop
    (cfg : Cfg) (fetch : FetchOutcome) (now : Nat) (feed_obj : FeedRec)
    (st : PostStore) (feedArg : Option FetchResult) (t : Nat)
    (h1 : feed_obj.date_last_refresh = some t)
    (h2 : now < t + cfg.min_refresh_interval) :
    update_feed cfg fetch now feed_obj st feedArg false = .ok ⟨feed_obj, st, false⟩ := by
  unfold update_feed
  rw [h1]
  simp [h2]

/-- Witness for C2 at a concrete input: a feed refreshed at time 5 is asked
to refresh again at time 10, inside the 1200-second window. -/
theorem update_feed_throttled_noop_witness :
    update_feed cfgW (.ok frGood) 10 foT stDup none false = .ok ⟨foT, stDup, false⟩ :=
  update_feed_throttled_noop cfgW (.ok frGood) 10 foT stDup none 5 rfl (by decide)

/-- C3: the claim says `force = true` bypasses the throttle check; in the
source the `force` keyword of `update_feed` is never read, so inside the
throttle window a forced refresh still short-circuits: at the concrete
failing input (last refresh 5, now 10, window 1200, force true) no fetch
happens and the feed row is returned unchanged. -/
theorem update_feed_force_not_bypassing :
    foT.date_last_refresh = some 5 ∧
    10 < 5 + cfgW.min_refresh_interval ∧
    update_feed cfgW (.ok frGood) 10 foT stDup none true = .ok ⟨foT, stDup, false⟩ :=
  ⟨rfl, by decide, rfl⟩

/-- C4: the claim says the multiple-match scan updates the first candidate
agreeing on author, link or content; in the source the scan body of
`_find_duplicate_post` reads the undefined name `possible_dupe` and raises
`NameError` on the first candidate.  At the concrete failing input (an
empty-guid entry whose title/feed/published-at identity matches the two rows
of `stDup`) `import_entry` raises instead of updating or creating. -/
theorem import_entry_dup_scan_crashes :
    pyStrip (badEntry.guid.getD []) = [] ∧
    (matchesTFD stDup.posts "News".toList "u".toList 50).length = 2 ∧
    import_entry cfgW 5 stDup badEntry foW = .error .nameError :=
  ⟨rfl, rfl, rfl⟩

/-- C6: the claim says synthesized fallback timestamps strictly decrease with
the entry's position; in the date resolution actually used by `update_feed`
(`entries_by_date.date_entry_tuple` in `importers.py`) every entry without a
parseable date gets the same pass timestamp `time.localtime()`: the two
distinct dateless entries `c6a` and `c6b` both resolve to the pass time 100,
a collision.  (`feedutil.entries_by_date` does implement the strictly
decreasing scheme — see `feedutil_synth_strict_anti` — but crashes on an
undefined name before returning.) -/
theorem date_fallback_collides :
    c6a ≠ c6b ∧
    c6a.date_parsed = none ∧ c6a.updated_parsed = none ∧ c6a.published_parsed = none ∧
    c6b.date_parsed = none ∧ c6b.updated_parsed = none ∧ c6b.published_parsed = none ∧
    date_key 100 c6a = 100 ∧ date_key 100 c6b = 100 :=
  ⟨by decide, rfl, rfl, rfl, rfl, rfl, rfl, rfl, rfl⟩

/-- C7 counterexample: a failure while processing one entry escalates to a
feed-level pass failure.  At a concrete input whose fetched batch is
`[badEntry, okEntry]`, the first entry's processing error (the `NameError`
of the duplicate scan) makes the whole `update_feed` pass raise, so the
second entry is never imported. -/
theorem update_feed_entry_failure_escalates :
    frGood.entries = [badEntry, okEntry] ∧
    update_feed cfgW (.ok frGood) 5 foW stDup (some frGood) false = .error .nameError :=
  ⟨rfl, rfl⟩

/-- C7 amended: the Importing phase has no per-entry exception handling: an
error from one entry aborts the processing of every remaining entry in the
batch and propagates as the result of the whole phase. -/
theorem import_entries_no_isolation
    (cfg : Cfg) (now : Nat) (fo : FeedRec) (st : PostStore) (e : FEntry)
    (rest : List FEntry) (err : Err)
    (h : import_entry cfg now st e fo = .error err) :
    import_entries cfg now fo st (e :: rest) = .error err := by
  unfold import_entries
  rw [h]

/-- Witness for the amended C7 at a concrete input: the failing `badEntry`
aborts the batch `[badEntry, okEntry]`. -/
theorem import_entries_no_isolation_witness :
    import_entries cfgW 5 foW stDup (badEntry :: [okEntry]) = .error .nameError :=
  import_entries_no_isolation cfgW 5 foW stDup badEntry [okEntry] .nameError rfl

/-- C8 counterexample: the claim says the extracted content equals the first
structured content block's value when one exists; at the concrete entry
`c8e`, which carries both a content block "C" and a summary "S", the handler
`_find_post_summary` returns the summary, not the block value. -/
theorem find_post_summary_ignores_content_block :
    c8e.content = ["C".toList] ∧
    find_post_summary (fun s => s) c8e = "S".toList ∧
    "S".toList ≠ "C".toList :=
  ⟨rfl, rfl, by decide⟩

/-- C8 amended: the extracted content field is the injected HTML summarizer
applied to the entry's summary when the summary key is present, else to the
first structured content block's value, else to the empty string; the
description is never consulted and if the summarizer fails nothing maps the
failure to an empty string on this path. -/
theorem find_post_summary_resolution (σ : Str → Str) (e : FEntry) :
    find_post_summary σ e =
      σ (match e.summary, e.content with
         | some s, _ => s
         | none, c :: _ => c
         | none, [] => []) := by
  rcases e with ⟨dp, up, pp, cont, summ, desc, lk, gd, tl, au, rk⟩
  cases summ <;> cases cont <;> rfl

/-- C9 counterexample: the claim says a declared max length of 0 means
unlimited; in the source a string field with `max_length = 0` is truncated
to `value[:0]`, the empty string. -/
theorem truncate_by_field_zero_not_unlimited :
    truncate_by_field (MaxLen.lim 0) "a".toList = [] ∧ "a".toList ≠ ([] : Str) :=
  ⟨rfl, by decide⟩

/-- C9 amended: with the `max_length` attribute missing or `None` the string
is returned unchanged; with a declared bound `n` — including 0 — the result
is exactly the first `n` characters, which equals the input whenever its
length is within the bound, is always within the bound, is idempotent, and
is empty for the bound 0. -/
theorem truncate_by_field_spec (s : Str) (n : Nat) :
    truncate_by_field MaxLen.absent s = s ∧
    truncate_by_field MaxLen.null s = s ∧
    truncate_by_field (MaxLen.lim n) s = s.take n ∧
    (s.length ≤ n → truncate_by_field (MaxLen.lim n) s = s) ∧
    (truncate_by_field (MaxLen.lim n) s).length ≤ n ∧
    truncate_by_field (MaxLen.lim n) (truncate_by_field (MaxLen.lim n) s)
      = truncate_by_field (MaxLen.lim n) s ∧
    truncate_by_field (MaxLen.lim 0) s = [] := by
  refine ⟨rfl, rfl, rfl, ?_, ?_, ?_, rfl⟩
  · exact fun h => List.take_of_length_le h
  · show (s.take n).length ≤ n
    rw [List.length_take]
    exact Nat.min_le_left _ _
  · show (s.take n).take n = s.take n
    rw [List.take_take, Nat.min_self]

/-- Witness for the amended C9 at a concrete input: "ab" passes through the
bound 5 unchanged and is emptied by the bound 0. -/
theorem truncate_by_field_spec_witness :
    truncate_by_field (MaxLen.lim 5) "ab".toList = "ab".toList ∧
    truncate_by_field (MaxLen.lim 0) "ab".toList = [] :=
  ⟨(truncate_by_field_spec "ab".toList 5).2.2.2.1 (by decide),
   (truncate_by_field_spec "ab".toList 5).2.2.2.2.2.2⟩

/-- C10: the claim says a first import whose fetch carries a redirect status
and a different final URL recurses against the new URL; in the source the
status feeding the redirect check is read as `feed.get("status\x5cn", HTTP_OK)`
— a key with a trailing newline that never exists — so the check always sees
HTTP_OK and the branch is dead.  At the concrete failing input (first import
of `http-orig`, fetch result status 302 with final URL `http-new`) the feed
is persisted under the original URL and no recursion happens. -/
theorem import_feed_redirect_not_followed :
    fr302.status = some HTTP_FOUND ∧
    fr302.href ≠ pyStrip "http-orig".toList ∧
    (import_feed cfgW fetch302 99 5 [] ⟨[], 0⟩ "http-orig".toList false).map
        (fun r => (r.feed.feed_url, r.feeds.map FeedRec.feed_url))
      = .ok ("http-orig".toList, ["http-orig".toList]) :=
  ⟨rfl, by decide, rfl⟩

/-- C1: for every feed and every entry whose guid is non-empty after trimming
(and whose guid field bound is not the degenerate `max_length = 0`),
importing the entry into a store that does not yet hold its identity yields
exactly one post with identity `(guid, feed)`; every further import of the
same entry — and of any entry with the same stored guid — takes the update
path (`created = false`) and leaves the post set unchanged instead of
creating a duplicate. -/
theorem import_entry_guid_unique
    (cfg : Cfg) (now : Nat) (e : FEntry) (fo : FeedRec) (st : PostStore)
    (hg : pyStrip (e.guid.getD []) ≠ [])
    (hlim : cfg.postLimits.guid ≠ MaxLen.lim 0)
    (h0 : countGF st.posts (entry_guid cfg e) fo.feed_url = 0) :
    ∃ st₁ : PostStore,
      import_entry_iter cfg now e fo 1 st = .ok st₁ ∧
      countGF st₁.posts (entry_guid cfg e) fo.feed_url = 1 ∧
      (∀ n, 1 ≤ n → import_entry_iter cfg now e fo n st = .ok st₁) ∧
      (∀ e2, entry_guid cfg e2 = entry_guid cfg e →
        ∃ p, import_entry cfg now st₁ e2 fo = .ok (st₁, p, false)) := by
  have hgT : entry_guid cfg e ≠ [] := truncate_by_field_ne_nil _ _ hlim hg
  set fields := truncate_post_fields cfg.postLimits (post_fields_parsed cfg.summarize now e fo)
    with hfields
  have hfg : fields.guid = entry_guid cfg e := rfl
  have hm0 : matchesGF st.posts fields.guid fo.feed_url = [] := by
    rw [hfg]
    unfold countGF at h0
    exact List.length_eq_zero.mp h0
  have hcreate : import_entry cfg now st e fo =
      .ok (⟨st.posts ++ [make_post st.nextPk fields fo.feed_url], st.nextPk + 1⟩,
           make_post st.nextPk fields fo.feed_url, true) := by
    unfold import_entry
    exact upsert_post_create st fields fo.feed_url (hfg ▸ hgT) hm0
  set p₁ := make_post st.nextPk fields fo.feed_url with hp₁
  set st₁ : PostStore := ⟨st.posts ++ [p₁], st.nextPk + 1⟩ with hst₁
  have hm1 : matchesGF st₁.posts (entry_guid cfg e) fo.feed_url = [p₁] := by
    show matchesGF (st.posts ++ [p₁]) (entry_guid cfg e) fo.feed_url = [p₁]
    rw [← hfg, matchesGF_append, hm0, hp₁, matchesGF_make_post]
    rfl
  have hcount1 : countGF st₁.posts (entry_guid cfg e) fo.feed_url = 1 := by
    unfold countGF
    rw [hm1]
    rfl
  have hupdate : ∀ e2, entry_guid cfg e2 = entry_guid cfg e →
      ∃ p, import_entry cfg now st₁ e2 fo = .ok (st₁, p, false) := by
    intro e2 he2
    refine ⟨p₁, ?_⟩
    unfold import_entry
    apply upsert_post_update
    · rw [fields_guid_eq, he2]
      exact hgT
    · rw [fields_guid_eq, he2]
      exact hm1
  have hfix : ∀ m, import_entry_iter cfg now e fo m st₁ = .ok st₁ := by
    intro m
    induction m with
    | zero => rfl
    | succ k ih =>
      obtain ⟨p, hp⟩ := hupdate e rfl
      unfold import_entry_iter
      rw [hp]
      exact ih
  refine ⟨st₁, ?_, hcount1, ?_, hupdate⟩
  · unfold import_entry_iter
    rw [hcreate]
    rfl
  · intro n hn
    match n, hn with
    | k + 1, _ =>
      unfold import_entry_iter
      rw [hcreate]
      exact hfix k

/-- Witness for C1 at a concrete input: the entry with guid `" g "` imported
into an empty store. -/
theorem import_entry_guid_unique_witness :
    ∃ st₁ : PostStore,
      import_entry_iter cfgW 5 gEntry foW 1 ⟨[], 0⟩ = .ok st₁ ∧
      countGF st₁.posts (entry_guid cfgW gEntry) foW.feed_url = 1 ∧
      (∀ n, 1 ≤ n → import_entry_iter cfgW 5 gEntry foW n ⟨[], 0⟩ = .ok st₁) ∧
      (∀ e2, entry_guid cfgW e2 = entry_guid cfgW gEntry →
        ∃ p, import_entry cfgW 5 st₁ e2 foW = .ok (st₁, p, false)) :=
  import_entry_guid_unique cfgW 5 gEntry foW ⟨[], 0⟩ (by decide) (by decide) (by decide)

/-- C5 counterexample: the claim says entries with equal resolved timestamps
appear in their original input order; at the concrete input `[exA, exB]`,
two distinct entries with the same parsed date, the output is `[exB, exA]` —
the in-place `sort()` followed by `reverse()` reverses the ascending tuple
order, which on a date tie is Python 2's order of the entry dictionaries,
not the input order. -/
theorem entries_by_date_tie_not_input_order :
    date_key 7 exA = date_key 7 exB ∧
    exA ≠ exB ∧
    entries_by_date 7 [exA, exB] 20 = [exB, exA] :=
  ⟨rfl, by decide, by decide⟩

/-- C5 amended: for a nonnegative limit, `entries_by_date` returns at most
`limit` entries, sorted by resolved timestamp in descending order; on equal
timestamps the reversal of Python's ascending stable sort leaves ties in
descending dictionary order of the entry values (abstracted by `rank`), not
in original input order. -/
theorem entries_by_date_sorted_desc (now : Nat) (es : List FEntry) (limit : Int)
    (hl : 0 ≤ limit) :
    (entries_by_date now es limit).length ≤ limit.toNat ∧
    (entries_by_date now es limit).Pairwise (fun a b =>
      date_key now b < date_key now a ∨
        (date_key now b = date_key now a ∧ b.rank ≤ a.rank)) := by
  have hslice : ∀ l : List (Nat × FEntry), pySlice limit l = l.take limit.toNat := by
    intro l
    unfold pySlice
    rw [if_pos hl]
  have hgoal : entries_by_date now es limit =
      ((((es.map (date_entry_tuple now)).insertionSort pairLe).reverse.take
          limit.toNat).map Prod.snd) := by
    show (pySlice limit
            ((es.map (date_entry_tuple now)).insertionSort pairLe).reverse).map Prod.snd = _
    rw [hslice]
  set L := (es.map (date_entry_tuple now)).insertionSort pairLe with hL
  rw [hgoal]
  constructor
  · rw [List.length_map, List.length_take]
    exact Nat.min_le_left _ _
  · have hs : List.Sorted pairLe L := List.sorted_insertionSort pairLe _
    have hrev : L.reverse.Pairwise (fun a b => pairLe b a) := by
      rw [List.pairwise_reverse]
      exact hs
    have htake : (L.reverse.take limit.toNat).Pairwise (fun a b => pairLe b a) :=
      hrev.sublist (List.take_sublist _ _)
    have hmem : ∀ p ∈ L.reverse.take limit.toNat, p.1 = date_key now p.2 := by
      intro p hp
      have h2 : p ∈ L := List.mem_reverse.mp (List.mem_of_mem_take hp)
      have h3 : p ∈ es.map (date_entry_tuple now) := by
        rw [hL] at h2
        exact (List.mem_insertionSort pairLe).mp h2
      obtain ⟨e0, _, he0⟩ := List.mem_map.mp h3
      rw [← he0, date_entry_tuple_snd]
      rfl
    have hp2 : (L.reverse.take limit.toNat).Pairwise (fun a b =>
        date_key now b.2 < date_key now a.2 ∨
          (date_key now b.2 = date_key now a.2 ∧ b.2.rank ≤ a.2.rank)) := by
      refine List.Pairwise.imp_of_mem ?_ htake
      intro a b ha hb hab
      have ha1 := hmem a ha
      have hb1 := hmem b hb
      unfold pairLe at hab
      rw [ha1, hb1] at hab
      exact hab
    exact List.pairwise_map.mpr hp2

/-- Witness for the amended C5 at a concrete input: the tied batch
`[exA, exB]` with limit 20. -/
theorem entries_by_date_sorted_desc_witness :
    (entries_by_date 7 [exA, exB] 20).length ≤ (20 : Int).toNat ∧
    (entries_by_date 7 [exA, exB] 20).Pairwise (fun a b =>
      date_key 7 b < date_key 7 a ∨
        (date_key 7 b = date_key 7 a ∧ b.rank ≤ a.rank)) :=
  entries_by_date_sorted_desc 7 [exA, exB] 20 (by decide)

end Djangofeeds
